import Mathlib

set_option autoImplicit false

namespace Insights

/-!
Shallow embedding of the streaming chat core of the Insights repository:
the SSE transport client (`frontend/src/services/sse-client.ts`,
`SSEClient.streamChatCompletion`), the chat store
(`frontend/src/store/chat-store.ts`), the chat handler hook
(`useChatHandler` in `frontend/src/hooks`), and the localStorage
persistence service (`frontend/src/services/conversation-persistence.ts`).

Strings delivered on the wire are modelled as `List Char` (the decoded
text; `TextDecoder` with `stream: true` turns any byte partition of the
body into a character partition of the same decoded text, so byte-level
delivery splitting is covered by quantifying over all character
partitions).  JSON parsing of a payload line (`JSON.parse`) is a platform
primitive and is kept as a parameter `parse : List Char → Option
StreamChunk`; a `none` result is the `catch` branch of the source.
Timestamps (`new Date().toISOString()`) are explicit `now : String`
arguments.  Generated ids (`crypto.randomUUID()`) are explicit arguments.
-/

/-- Message role, from the union type `MessageRole` in `types/chat.ts`. -/
inductive MessageRole where
  | user : MessageRole
  | assistant : MessageRole
  | system : MessageRole
deriving DecidableEq

/-- Chat message record, from `interface Message` in `types/chat.ts`. -/
structure Message where
  id : String
  role : MessageRole
  content : String
  timestamp : String
deriving DecidableEq

/-- Conversation record, from `interface Conversation` in `types/chat.ts`. -/
structure Conversation where
  id : String
  title : String
  messages : List Message
  created_at : String
  updated_at : String
deriving DecidableEq

/-- Request payload, from `interface ChatRequest` in `types/chat.ts`. -/
structure ChatRequest where
  conversation_id : Option String
  message : String
  model : Option String
  temperature : Option Rat
  max_tokens : Option Nat
deriving DecidableEq

/-- Streamed chunk record, from `interface StreamChunk` in `types/chat.ts`. -/
structure StreamChunk where
  content : String
  is_final : Bool
  conversation_id : Option String
  message_id : Option String
deriving DecidableEq

/-! ### Stream transport client (`SSEClient.streamChatCompletion`) -/

/-- Whitespace characters removed by JavaScript `String.prototype.trim`
(the ASCII ones that can occur in this protocol). -/
def isJsSpace (c : Char) : Bool :=
  c == ' ' || c == '\t' || c == '\n' || c == '\r' || c == '\x0b' || c == '\x0c'

/-- JavaScript `line.trim()` on a decoded character list. -/
def trimChars (l : List Char) : List Char :=
  ((l.dropWhile isJsSpace).reverse.dropWhile isJsSpace).reverse

/-- The protocol line marker `"data: "` checked by `line.startsWith`. -/
def dataMarker : List Char := "data: ".toList

/-- The terminal sentinel payload `"[DONE]"`. -/
def doneSentinel : List Char := "[DONE]".toList

/-- Action taken by the body of the `for (const line of lines)` loop in
`streamChatCompletion` for one complete line: skip it (blank line, line
without the `data: ` marker, or a payload that fails to parse), emit a
chunk via `onChunk`, or complete the stream (`[DONE]` sentinel or a chunk
with `is_final` true, both of which call `onComplete` and return). -/
inductive LineAct where
  | skip : LineAct
  | complete : LineAct
  | emit : StreamChunk → LineAct
deriving DecidableEq

/-- Processing of one complete line, transcribed from the loop body of
`streamChatCompletion` (blank-line skip, `data: ` marker check,
`[DONE]` check, JSON parse with `is_final` check, parse-failure skip). -/
def processLine (parse : List Char → Option StreamChunk) (line : List Char) :
    LineAct :=
  if trimChars line = [] then .skip
  else if dataMarker.isPrefixOf line then
    let data := line.drop 6
    if trimChars data = doneSentinel then .complete
    else
      match parse data with
      | some chunk => if chunk.is_final then .complete else .emit chunk
      | none => .skip
  else .skip

/-- Run the line loop over a list of complete lines.  Returns the chunks
emitted via `onChunk` in order, and whether the loop returned early
(terminal sentinel or final chunk reached). -/
def runLines (parse : List Char → Option StreamChunk) :
    List (List Char) → List StreamChunk × Bool
  | [] => ([], false)
  | line :: rest =>
    match processLine parse line with
    | .skip => runLines parse rest
    | .complete => ([], true)
    | .emit c =>
      let r := runLines parse rest
      (c :: r.1, r.2)

/-- Fused form of `buffer.split('\n')` followed by `buffer = lines.pop()`:
splits a character list into the newline-terminated complete lines and the
trailing fragment after the last newline (the new carry-over buffer). -/
def splitLines : List Char → List (List Char) × List Char
  | [] => ([], [])
  | c :: cs =>
    let r := splitLines cs
    if c = '\n' then ([] :: r.1, r.2)
    else
      match r.1 with
      | [] => ([], c :: r.2)
      | l :: ls => ((c :: l) :: ls, r.2)

/-- Outcome of one `streamChatCompletion` body run that does not throw:
the chunks delivered to `onChunk` in arrival order and the number of
`onComplete` invocations. -/
structure StreamResult where
  events : List StreamChunk
  completions : Nat
deriving DecidableEq

/-- The `while (true)` read loop of `streamChatCompletion`: each network
delivery is appended to the carry-over buffer, the buffer is split on
newlines keeping the last fragment, and the complete lines are processed;
an early return stops reading, and end of body (`done`) breaks out of the
loop and calls `onComplete` once, discarding the remaining buffer. -/
def readLoop (parse : List Char → Option StreamChunk) (buffer : List Char) :
    List (List Char) → StreamResult
  | [] => { events := [], completions := 1 }
  | value :: rest =>
    let s := splitLines (buffer ++ value)
    let r := runLines parse s.1
    if r.2 then { events := r.1, completions := 1 }
    else
      let res := readLoop parse s.2 rest
      { events := r.1 ++ res.events, completions := res.completions }

/-- The happy-path body of `SSEClient.streamChatCompletion`, starting from
the empty carry-over buffer, applied to a list of network deliveries. -/
def streamChatCompletion (parse : List Char → Option StreamChunk)
    (deliveries : List (List Char)) : StreamResult :=
  readLoop parse [] deliveries

/-- The `catch` branch of `streamChatCompletion` (lines 146-155 of the
client): an error whose name is `AbortError` is swallowed (no `onError`
call), any other error is forwarded to `onError` with its message. -/
def catchHandler (name message : String) : Option String :=
  if name = "AbortError" then none else some message

/-! ### Chat store (`frontend/src/store/chat-store.ts`) -/

/-- The Zustand store state (`interface ChatState` in `chat-store.ts`),
restricted to its data fields. -/
structure ChatState where
  currentConversation : Option Conversation
  conversations : List Conversation
  isStreaming : Bool
  currentStreamingMessage : String
  error : Option String
deriving DecidableEq

/-- Store action `setCurrentConversation`. -/
def setCurrentConversation (st : ChatState) (conversation : Option Conversation) :
    ChatState :=
  { st with currentConversation := conversation }

/-- Store action `addConversation`: prepends to the conversation list. -/
def addConversation (st : ChatState) (conversation : Conversation) : ChatState :=
  { st with conversations := conversation :: st.conversations }

/-- A `Partial Conversation` object, as taken by `updateConversation`. -/
structure ConversationUpdates where
  id : Option String
  title : Option String
  messages : Option (List Message)
  created_at : Option String
  updated_at : Option String
deriving DecidableEq

/-- JavaScript object spread of a partial update onto a conversation,
modelling the source expression written with conv spread then updates
spread inside braces. -/
def spreadUpdates (conv : Conversation) (u : ConversationUpdates) : Conversation :=
  { id := u.id.getD conv.id
    title := u.title.getD conv.title
    messages := u.messages.getD conv.messages
    created_at := u.created_at.getD conv.created_at
    updated_at := u.updated_at.getD conv.updated_at }

/-- Store action `updateConversation`: merges the supplied fields into the
matching conversation (and into `currentConversation` when its id
matches).  Note the source does not touch `updated_at` here. -/
def updateConversation (st : ChatState) (conversationId : String)
    (updates : ConversationUpdates) : ChatState :=
  { st with
    conversations := st.conversations.map fun conv =>
      if conv.id = conversationId then spreadUpdates conv updates else conv
    currentConversation :=
      match st.currentConversation with
      | some c =>
        if c.id = conversationId then some (spreadUpdates c updates) else some c
      | none => none }

/-- Store action `deleteConversation`. -/
def deleteConversation (st : ChatState) (conversationId : String) : ChatState :=
  { st with
    conversations := st.conversations.filter fun conv => conv.id ≠ conversationId
    currentConversation :=
      match st.currentConversation with
      | some c => if c.id = conversationId then none else some c
      | none => none }

/-- Store action `addMessage`: appends the message and stamps
`updated_at` with the current time on every conversation whose id matches
(the source computes the timestamp with `new Date().toISOString()`,
modelled by the explicit `now` argument). -/
def addMessage (st : ChatState) (conversationId : String) (message : Message)
    (now : String) : ChatState :=
  let updateMessages := fun (conv : Conversation) =>
    { conv with messages := conv.messages ++ [message], updated_at := now }
  { st with
    conversations := st.conversations.map fun conv =>
      if conv.id = conversationId then updateMessages conv else conv
    currentConversation :=
      match st.currentConversation with
      | some c => if c.id = conversationId then some (updateMessages c) else some c
      | none => none }

/-- Store action `setIsStreaming`. -/
def setIsStreaming (st : ChatState) (b : Bool) : ChatState :=
  { st with isStreaming := b }

/-- Store action `appendToStreamingMessage`. -/
def appendToStreamingMessage (st : ChatState) (chunk : String) : ChatState :=
  { st with currentStreamingMessage := st.currentStreamingMessage ++ chunk }

/-- Store action `clearStreamingMessage`. -/
def clearStreamingMessage (st : ChatState) : ChatState :=
  { st with currentStreamingMessage := "" }

/-- Store action `setError`. -/
def setError (st : ChatState) (e : Option String) : ChatState :=
  { st with error := e }

/-! ### Chat handler hook (`useChatHandler`) -/

/-- JavaScript truthiness of an optional string (`null`, `undefined` and
the empty string are falsy). -/
def strTruthy : Option String → Bool
  | none => false
  | some s => !(s == "")

/-- State carried across one `sendMessage` call: the store state plus the
local `assistantMessageId` variable of the closure. -/
structure SessionState where
  chat : ChatState
  assistantMessageId : Option String
deriving DecidableEq

/-- The `onChunk` callback of `useChatHandler.sendMessage`: records the
first truthy `message_id` (first-writer-wins) and appends the chunk
content to the streaming buffer. -/
def onChunk (s : SessionState) (chunk : StreamChunk) : SessionState :=
  let amid :=
    if strTruthy chunk.message_id && !strTruthy s.assistantMessageId then
      chunk.message_id
    else s.assistantMessageId
  { chat := appendToStreamingMessage s.chat chunk.content
    assistantMessageId := amid }

/-- JavaScript `assistantMessageId || crypto.randomUUID()`: the recorded
id when truthy, otherwise a fresh one. -/
def orFreshId (o : Option String) (fresh : String) : String :=
  match o with
  | some s => if s = "" then fresh else s
  | none => fresh

/-- The `onComplete` callback of `useChatHandler.sendMessage`: commits an
assistant message built from the streamed buffer if and only if the
buffer is a truthy (non-empty) string, then leaves streaming state. -/
def onComplete (conversationId freshId now : String) (s : SessionState) :
    SessionState :=
  let streamedContent := s.chat.currentStreamingMessage
  let chat1 :=
    if streamedContent ≠ "" then
      addMessage s.chat conversationId
        { id := orFreshId s.assistantMessageId freshId
          role := .assistant
          content := streamedContent
          timestamp := now } now
    else s.chat
  { s with chat := clearStreamingMessage (setIsStreaming chat1 false) }

/-- The `onError` callback of `useChatHandler.sendMessage`: surfaces the
message, leaves streaming state, clears the buffer. -/
def onError (message : String) (s : SessionState) : SessionState :=
  { s with
    chat := clearStreamingMessage (setIsStreaming (setError s.chat (some message)) false) }

/-- The `cancelStream` callback of `useChatHandler`: aborts the transport
(whose `AbortError` is swallowed by `catchHandler`, so no further
callback runs) and resets the streaming state. -/
def cancelStream (st : ChatState) : ChatState :=
  clearStreamingMessage (setIsStreaming st false)

/-- Delivery of an in-flight stream prefix: folds `onChunk` over the
chunks emitted so far. -/
def applyChunks (s : SessionState) (events : List StreamChunk) : SessionState :=
  events.foldl onChunk s

/-- A full successful stream as observed by the handler: every emitted
chunk is delivered through `onChunk`, then `onComplete` runs. -/
def runStream (conversationId freshId now : String) (s : SessionState)
    (r : StreamResult) : SessionState :=
  onComplete conversationId freshId now (applyChunks s r.events)

/-- Result of a `useChatHandler.sendMessage` invocation up to the moment
the network request opens: the store state at that moment, the request
payload handed to the transport (`none` when no request is opened), and
the user message committed (`none` when none is). -/
structure SendResult where
  state : ChatState
  request : Option ChatRequest
  userMessage : Option Message
deriving DecidableEq

/-- The `createNewConversation` callback of `useChatHandler` (fresh id
and creation time are explicit arguments). -/
def createNewConversation (st : ChatState) (newId now : String) :
    Conversation × ChatState :=
  let newConversation : Conversation :=
    { id := newId
      title := "New Chat"
      messages := []
      created_at := now
      updated_at := now }
  (newConversation,
    setCurrentConversation (addConversation st newConversation) (some newConversation))

/-- The synchronous part of `useChatHandler.sendMessage`, transcribed in
source order: resolve or create the conversation, then the single-flight
guard (`if (isStreaming) return`), then commit the user message, enter
streaming state, clear the buffer, and open the request. -/
def sendMessage (st : ChatState) (messageContent : String)
    (newConvId userMsgId now : String) : SendResult :=
  let cs :=
    match st.currentConversation with
    | some c => (c, st)
    | none => createNewConversation st newConvId now
  let conversation := cs.1
  let st1 := cs.2
  if st1.isStreaming then
    { state := st1, request := none, userMessage := none }
  else
    let userMessage : Message :=
      { id := userMsgId, role := .user, content := messageContent, timestamp := now }
    let st2 := addMessage st1 conversation.id userMessage now
    let st3 := clearStreamingMessage (setIsStreaming st2 true)
    { state := st3
      request := some
        { conversation_id := some conversation.id
          message := messageContent
          model := none
          temperature := none
          max_tokens := none }
      userMessage := some userMessage }

/-! ### Persistence (`conversation-persistence.ts`) -/

/-- The parsed content of the `insights_conversations` localStorage key.
The JSON round trip through `JSON.stringify` and `JSON.parse` is the
identity on these plain string-field records, so the store is modelled
directly as the conversation list it serializes. -/
def PersistedStore : Type := List Conversation

/-- `LocalStoragePersistence.save`: replace the conversation with the
same id when present (`findIndex` then assignment), otherwise `unshift`
it to the front. -/
def save (store : List Conversation) (conversation : Conversation) :
    List Conversation :=
  match store.findIdx? (fun c => c.id == conversation.id) with
  | some i => store.set i conversation
  | none => conversation :: store

/-- `LocalStoragePersistence.loadAll`: returns the stored list. -/
def loadAll (store : List Conversation) : List Conversation := store

/-! ### Specification-level helper definitions and concrete fixtures -/

/-- Concatenation, in arrival order, of the `content` fields of a list of
chunk records. -/
def concatContents : List StreamChunk → String
  | [] => ""
  | c :: rest => c.content ++ concatContents rest

/-- Lexicographic comparison of character lists.  ISO-8601 UTC timestamps
compare chronologically exactly when they compare lexicographically, so
this is the order in which `created_at`/`updated_at` strings are
compared. -/
def lexLe : List Char → List Char → Bool
  | [], _ => true
  | _ :: _, [] => false
  | a :: as, b :: bs => if a = b then lexLe as bs else decide (a < b)

/-- Timestamp order on ISO-8601 strings. -/
def tsLe (a b : String) : Prop := lexLe a.data b.data = true

instance (a b : String) : Decidable (tsLe a b) :=
  inferInstanceAs (Decidable (lexLe a.data b.data = true))

/-- Fixture: a fresh conversation with no messages. -/
def conv0 : Conversation where
  id := "c0"
  title := "New Chat"
  messages := []
  created_at := "t0"
  updated_at := "t0"

/-- Fixture: an idle store state holding `conv0`. -/
def idleState : ChatState where
  currentConversation := some conv0
  conversations := [conv0]
  isStreaming := false
  currentStreamingMessage := ""
  error := none

/-- Fixture: a streaming store state with no conversations. -/
def busyState : ChatState where
  currentConversation := none
  conversations := []
  isStreaming := true
  currentStreamingMessage := ""
  error := none

/-- Fixture: a streaming store state holding `conv0`. -/
def streamingState : ChatState where
  currentConversation := some conv0
  conversations := [conv0]
  isStreaming := true
  currentStreamingMessage := ""
  error := none

/-- Fixture: a payload parser that rejects every line. -/
def parseNone : List Char → Option StreamChunk := fun _ => none

/-- Fixture: a payload parser accepting the single payload `x` as a
non-final chunk with content `Hi`. -/
def parseHi : List Char → Option StreamChunk := fun data =>
  if data = "x".toList then
    some { content := "Hi", is_final := false, conversation_id := none, message_id := none }
  else none

/-! ### Properties of the line reassembly -/

theorem splitLines_no_newline (l : List Char) (h : '\n' ∉ l) :
    splitLines l = ([], l) := by
  induction l with
  | nil => rfl
  | cons c cs ih =>
    simp only [List.mem_cons, not_or] at h
    have hc : ¬ c = '\n' := fun e => h.1 e.symm
    simp [splitLines, ih h.2, hc]

theorem snd_splitLines_no_newline (l : List Char) : '\n' ∉ (splitLines l).2 := by
  induction l with
  | nil => simp [splitLines]
  | cons c cs ih =>
    by_cases hc : c = '\n'
    · simp [splitLines, hc, ih]
    · cases h1 : (splitLines cs).1 with
      | nil =>
        simp [splitLines, hc, h1]
        exact ⟨fun e => hc e.symm, ih⟩
      | cons l ls => simp [splitLines, hc, h1, ih]

/-- Carry-over composition: splitting `a ++ b` yields the complete lines
of `a` followed by the complete lines of the fragment of `a` glued onto
`b`, with that latter split's trailing fragment. -/
theorem splitLines_assoc (a b : List Char) :
    splitLines (a ++ b) =
      ((splitLines a).1 ++ (splitLines ((splitLines a).2 ++ b)).1,
       (splitLines ((splitLines a).2 ++ b)).2) := by
  induction a with
  | nil => simp [splitLines]
  | cons c a ih =>
    by_cases hc : c = '\n'
    · subst hc
      simp [List.cons_append, splitLines, ih]
    · cases h1 : (splitLines a).1 with
      | nil =>
        simp [List.cons_append, splitLines, hc, ih, h1]
      | cons l ls =>
        simp [List.cons_append, splitLines, hc, ih, h1]

theorem runLines_append (parse : List Char → Option StreamChunk)
    (l1 l2 : List (List Char)) :
    runLines parse (l1 ++ l2) =
      if (runLines parse l1).2 then runLines parse l1
      else ((runLines parse l1).1 ++ (runLines parse l2).1,
            (runLines parse l2).2) := by
  induction l1 with
  | nil => simp [runLines]
  | cons line rest ih =>
    cases hpl : processLine parse line with
    | skip =>
      simp only [List.cons_append, runLines, hpl]
      exact ih
    | complete => simp [List.cons_append, runLines, hpl]
    | emit c =>
      simp only [List.cons_append, runLines, hpl, List.append_eq]
      rw [ih]
      by_cases h : (runLines parse rest).2 <;> simp [h]

/-- The read loop, started on a newline-free carry-over buffer, behaves
like the line loop run once over the complete lines of the whole body; in
particular `onComplete` fires exactly once. -/
theorem readLoop_eq_canonical (parse : List Char → Option StreamChunk)
    (ds : List (List Char)) (buffer : List Char) (hb : '\n' ∉ buffer) :
    readLoop parse buffer ds =
      { events := (runLines parse (splitLines (buffer ++ ds.flatten)).1).1,
        completions := 1 } := by
  induction ds generalizing buffer with
  | nil =>
    simp [readLoop, splitLines_no_newline _ hb, runLines]
  | cons d rest ih =>
    have hassoc := splitLines_assoc (buffer ++ d) rest.flatten
    have hb2 := snd_splitLines_no_newline (buffer ++ d)
    simp only [readLoop]
    rw [List.flatten_cons, ← List.append_assoc, hassoc, runLines_append]
    by_cases h2 : (runLines parse (splitLines (buffer ++ d)).1).2
    · simp [h2]
    · simp only [h2, if_false]
      rw [ih _ hb2]
      simp

theorem streamChatCompletion_eq_canonical (parse : List Char → Option StreamChunk)
    (deliveries : List (List Char)) :
    streamChatCompletion parse deliveries =
      { events := (runLines parse (splitLines deliveries.flatten).1).1,
        completions := 1 } := by
  rw [streamChatCompletion, readLoop_eq_canonical parse deliveries [] (by simp)]
  simp

/-- Claim C2: for every response body and every way of partitioning it
into arbitrary-sized network deliveries, the carry-over-buffer line
reassembly of `streamChatCompletion` decodes the same sequence of
structured chunk records (and the same completion count) as delivering
the whole body at once; in particular a protocol line split across two
deliveries, even inside a JSON string value, parses identically to the
unsplit line. -/
theorem c2_reassembly_split_invariant (parse : List Char → Option StreamChunk)
    (deliveries : List (List Char)) :
    streamChatCompletion parse deliveries =
      streamChatCompletion parse [deliveries.flatten] := by
  rw [streamChatCompletion_eq_canonical, streamChatCompletion_eq_canonical]
  simp

/-! ### Properties of the handler callbacks and the store -/

/-- Folding the `onChunk` callback over a list of chunks only appends the
concatenated chunk contents to the streaming buffer; every other store
field is untouched. -/
theorem applyChunks_chat (events : List StreamChunk) (s : SessionState) :
    (applyChunks s events).chat =
      { s.chat with currentStreamingMessage :=
          s.chat.currentStreamingMessage ++ concatContents events } := by
  induction events generalizing s with
  | nil => simp [applyChunks, concatContents]
  | cons c rest ih =>
    simp only [applyChunks, List.foldl_cons] at *
    rw [ih]
    simp [onChunk, appendToStreamingMessage, concatContents, String.append_assoc]

@[simp] theorem conversations_clearStreamingMessage (st : ChatState) :
    (clearStreamingMessage st).conversations = st.conversations := rfl

@[simp] theorem conversations_setIsStreaming (st : ChatState) (b : Bool) :
    (setIsStreaming st b).conversations = st.conversations := rfl

@[simp] theorem conversations_setError (st : ChatState) (e : Option String) :
    (setError st e).conversations = st.conversations := rfl

@[simp] theorem conversations_cancelStream (st : ChatState) :
    (cancelStream st).conversations = st.conversations := rfl

@[simp] theorem conversations_onError (m : String) (s : SessionState) :
    (onError m s).chat.conversations = s.chat.conversations := rfl

@[simp] theorem applyChunks_conversations (s : SessionState) (events : List StreamChunk) :
    (applyChunks s events).chat.conversations = s.chat.conversations := by
  rw [applyChunks_chat]

theorem addMessage_conversations (st : ChatState) (cid : String) (m : Message) (now : String) :
    (addMessage st cid m now).conversations =
      st.conversations.map fun conv =>
        if conv.id = cid then { conv with messages := conv.messages ++ [m], updated_at := now }
        else conv := rfl

/-- A message present in some conversation stays present (under the same
conversation id) across any `addMessage`, which can only append. -/
theorem exists_mem_addMessage (st : ChatState) (cid' cid : String) (m um : Message) (now : String)
    (h : ∃ c ∈ st.conversations, c.id = cid ∧ um ∈ c.messages) :
    ∃ c ∈ (addMessage st cid' m now).conversations, c.id = cid ∧ um ∈ c.messages := by
  obtain ⟨c, hc, hid, hum⟩ := h
  refine ⟨if c.id = cid' then { c with messages := c.messages ++ [m], updated_at := now } else c,
    ?_, ?_, ?_⟩
  · rw [addMessage_conversations]
    exact List.mem_map_of_mem _ hc
  · have hsame :
        (if c.id = cid' then { c with messages := c.messages ++ [m], updated_at := now } else c).id
          = c.id := by
      by_cases hh : c.id = cid' <;> simp [hh]
    rw [hsame, hid]
  · by_cases hh : c.id = cid' <;> simp [hh, hum]

/-- A message present in some conversation stays present across a full
stream run (chunks followed by `onComplete`). -/
theorem exists_mem_runStream (state : ChatState) (cid' cid freshId now2 : String)
    (um : Message) (amid : Option String) (tr : StreamResult)
    (h : ∃ c ∈ state.conversations, c.id = cid ∧ um ∈ c.messages) :
    ∃ c ∈ (runStream cid' freshId now2 ⟨state, amid⟩ tr).chat.conversations,
      c.id = cid ∧ um ∈ c.messages := by
  rw [runStream, onComplete]
  dsimp only
  by_cases hne : (applyChunks ⟨state, amid⟩ tr.events).chat.currentStreamingMessage ≠ ""
  · rw [if_pos hne]
    simp only [conversations_clearStreamingMessage, conversations_setIsStreaming]
    apply exists_mem_addMessage
    simpa using h
  · rw [if_neg hne]
    simp only [conversations_clearStreamingMessage, conversations_setIsStreaming]
    simpa using h

theorem map_ite_id_of_absent (l : List Conversation) (cid : String)
    (f : Conversation → Conversation) (h : ∀ c ∈ l, c.id ≠ cid) :
    (l.map fun conv => if conv.id = cid then f conv else conv) = l := by
  have hcongr := List.map_congr_left (l := l)
    (f := fun conv => if conv.id = cid then f conv else conv) (g := id)
    (fun c hc => by simp [h c hc])
  rw [hcongr, List.map_id]

theorem findIdx?_lt_length {α : Type} (p : α → Bool) (l : List α) (i : Nat)
    (h : l.findIdx? p = some i) : i < l.length := by
  induction l generalizing i with
  | nil => simp [List.findIdx?] at h
  | cons x xs ih =>
    rw [List.findIdx?_cons] at h
    by_cases hx : p x
    · simp [hx] at h
      simp [← h]
    · simp [hx] at h
      obtain ⟨j, hj, rfl⟩ := h
      have := ih j hj
      simp
      omega

/-! ### The claims -/

/-- Claim C1, original form, is false on the code: the stream whose body
is the single line `data: [DONE]` terminated by a newline completes
normally (`onComplete` fires exactly once), yet no assistant message is
appended — the conversation list is unchanged, because `onComplete`
commits only when the streamed buffer is a non-empty string. -/
theorem c1_counterexample_empty_stream :
    (streamChatCompletion parseNone ["data: [DONE]\n".toList]).completions = 1 ∧
    (runStream "c0" "m0" "t1" ⟨streamingState, none⟩
        (streamChatCompletion parseNone ["data: [DONE]\n".toList])).chat.conversations =
      [conv0] := by
  constructor <;> rfl

/-- Claim C1 (amended): every stream whose body is fully processed
signals completion exactly once, and the handler then appends exactly one
new assistant message — whose content is the concatenation, in arrival
order, of the `content` fields of all chunk records delivered on the
stream — to each conversation carrying the target id, leaving every other
conversation unchanged, provided that concatenation is non-empty; when
the concatenation is empty (for example a stream with no chunks), no
assistant message is appended at all. -/
theorem c1_completion_commits_concatenated_content
    (parse : List Char → Option StreamChunk) (deliveries : List (List Char))
    (cid freshId now : String) (st : ChatState) (amid : Option String)
    (hbuf : st.currentStreamingMessage = "") :
    (streamChatCompletion parse deliveries).completions = 1 ∧
    ∃ aid,
      (runStream cid freshId now ⟨st, amid⟩
          (streamChatCompletion parse deliveries)).chat.conversations =
        if concatContents (streamChatCompletion parse deliveries).events = "" then
          st.conversations
        else
          st.conversations.map fun conv =>
            if conv.id = cid then
              { conv with
                  messages := conv.messages ++
                    [{ id := aid
                       role := .assistant
                       content := concatContents (streamChatCompletion parse deliveries).events
                       timestamp := now }]
                  updated_at := now }
            else conv := by
  refine ⟨by rw [streamChatCompletion_eq_canonical], ?_⟩
  refine ⟨orFreshId (applyChunks ⟨st, amid⟩
      (streamChatCompletion parse deliveries).events).assistantMessageId freshId, ?_⟩
  rw [runStream, onComplete]
  have hchat := applyChunks_chat (streamChatCompletion parse deliveries).events ⟨st, amid⟩
  by_cases hc : concatContents (streamChatCompletion parse deliveries).events = ""
  · simp [hchat, hbuf, hc, clearStreamingMessage, setIsStreaming]
  · simp [hchat, hbuf, hc, clearStreamingMessage, setIsStreaming, addMessage]

theorem c1_completion_commits_concatenated_content_witness :
    streamingState.currentStreamingMessage = "" ∧
    ((streamChatCompletion parseHi ["data: x\ndata: [DONE]\n".toList]).completions = 1 ∧
     ∃ aid,
      (runStream "c0" "m0" "t1" ⟨streamingState, none⟩
          (streamChatCompletion parseHi ["data: x\ndata: [DONE]\n".toList])).chat.conversations =
        if concatContents (streamChatCompletion parseHi
            ["data: x\ndata: [DONE]\n".toList]).events = "" then
          streamingState.conversations
        else
          streamingState.conversations.map fun conv =>
            if conv.id = "c0" then
              { conv with
                  messages := conv.messages ++
                    [{ id := aid
                       role := .assistant
                       content := concatContents (streamChatCompletion parseHi
                         ["data: x\ndata: [DONE]\n".toList]).events
                       timestamp := "t1" }]
                  updated_at := "t1" }
            else conv) :=
  ⟨rfl, c1_completion_commits_concatenated_content parseHi
    ["data: x\ndata: [DONE]\n".toList] "c0" "m0" "t1" streamingState none rfl⟩

/-- Claim C3: cancelling an in-flight stream (any prefix of chunk events
already applied) never appends an assistant message to any conversation
(the conversation list is exactly as before the stream), always resets
the streaming state machine to idle (`isStreaming` false, streaming
buffer empty), and never surfaces the abort to observers: the transport
`catch` swallows `AbortError` without an `onError` call, and the store
error field is untouched. -/
theorem c3_cancel_idle_no_commit_no_error (st : ChatState) (amid : Option String)
    (events : List StreamChunk) (m : String) :
    catchHandler "AbortError" m = none ∧
    cancelStream (applyChunks ⟨st, amid⟩ events).chat =
      { currentConversation := st.currentConversation
        conversations := st.conversations
        isStreaming := false
        currentStreamingMessage := ""
        error := st.error } := by
  constructor
  · simp [catchHandler]
  · rw [applyChunks_chat]
    simp [cancelStream, clearStreamingMessage, setIsStreaming]

/-- Claim C6: a stream that ends in a transport error (any error whose
name is not `AbortError`) is forwarded by the transport `catch` to
`onError` with its message; the handler then surfaces the message in the
store error field, clears the assembly buffer, leaves the streaming
state, and commits no assistant message — the conversation list is
exactly as before the stream, no matter how many chunks were already
received. -/
theorem c6_transport_error_surfaced_discards_buffer (st : ChatState) (amid : Option String)
    (events : List StreamChunk) (name m : String) (hname : name ≠ "AbortError") :
    catchHandler name m = some m ∧
    (onError m (applyChunks ⟨st, amid⟩ events)).chat =
      { currentConversation := st.currentConversation
        conversations := st.conversations
        isStreaming := false
        currentStreamingMessage := ""
        error := some m } := by
  constructor
  · simp [catchHandler, hname]
  · rw [onError, applyChunks_chat]
    simp [clearStreamingMessage, setIsStreaming, setError]

theorem c6_transport_error_surfaced_discards_buffer_witness :
    ("HTTP 500" : String) ≠ "AbortError" ∧
    (catchHandler "HTTP 500" "boom" = some "boom" ∧
     (onError "boom" (applyChunks ⟨streamingState, none⟩ [])).chat =
      { currentConversation := some conv0
        conversations := [conv0]
        isStreaming := false
        currentStreamingMessage := ""
        error := some "boom" }) :=
  ⟨by decide, c6_transport_error_surfaced_discards_buffer streamingState none [] "HTTP 500"
    "boom" (by decide)⟩

/-- Claim C4: while a stream is active (`isStreaming` true), an attempt
to start a new stream is rejected by the single-flight guard: no request
payload is handed to the transport (no second session opens), no user
message is produced, and no message is appended to any conversation —
the conversation list is unchanged except possibly for a brand-new empty
conversation created by the conversation-resolution step that precedes
the guard. -/
theorem c4_single_flight_guard (st : ChatState) (content newConvId userMsgId now : String)
    (h : st.isStreaming = true) :
    (sendMessage st content newConvId userMsgId now).request = none ∧
    (sendMessage st content newConvId userMsgId now).userMessage = none ∧
    ((sendMessage st content newConvId userMsgId now).state.conversations = st.conversations ∨
      ∃ nc : Conversation, nc.messages = [] ∧
        (sendMessage st content newConvId userMsgId now).state.conversations =
          nc :: st.conversations) := by
  cases hcur : st.currentConversation with
  | some c =>
    refine ⟨?_, ?_, Or.inl ?_⟩ <;> simp [sendMessage, hcur, h]
  | none =>
    refine ⟨?_, ?_, Or.inr ⟨⟨newConvId, "New Chat", [], now, now⟩, rfl, ?_⟩⟩ <;>
      simp [sendMessage, hcur, h, createNewConversation, setCurrentConversation, addConversation]

theorem c4_single_flight_guard_witness :
    busyState.isStreaming = true ∧
    ((sendMessage busyState "hi" "n1" "u1" "t1").request = none ∧
     (sendMessage busyState "hi" "n1" "u1" "t1").userMessage = none ∧
     ((sendMessage busyState "hi" "n1" "u1" "t1").state.conversations =
        busyState.conversations ∨
      ∃ nc : Conversation, nc.messages = [] ∧
        (sendMessage busyState "hi" "n1" "u1" "t1").state.conversations =
          nc :: busyState.conversations)) :=
  ⟨rfl, c4_single_flight_guard busyState "hi" "n1" "u1" "t1" rfl⟩

/-- Claim C5: starting a stream from the idle state commits a user
message carrying the submitted text to the conversation store strictly
before the network request opens — the state at request-open time already
contains it in the target conversation — and that user message remains in
the target conversation after the stream completes (`runStream`), errors
(`onError`), or is cancelled (`cancelStream`), whatever chunks were
delivered in between.  The hypothesis on `currentConversation` is the
store well-formedness condition that the current conversation, when set,
is listed in the store. -/
theorem c5_user_message_committed_before_request (st : ChatState)
    (content newConvId userMsgId now : String)
    (hidle : st.isStreaming = false)
    (hcur : ∀ c, st.currentConversation = some c → c ∈ st.conversations) :
    ∃ um cid,
      (sendMessage st content newConvId userMsgId now).userMessage = some um ∧
      um.role = .user ∧ um.content = content ∧
      (sendMessage st content newConvId userMsgId now).request =
        some { conversation_id := some cid, message := content,
               model := none, temperature := none, max_tokens := none } ∧
      (∃ c ∈ (sendMessage st content newConvId userMsgId now).state.conversations,
        c.id = cid ∧ um ∈ c.messages) ∧
      (∀ freshId now2 (amid : Option String) (tr : StreamResult),
        ∃ c ∈ (runStream cid freshId now2
            ⟨(sendMessage st content newConvId userMsgId now).state, amid⟩ tr).chat.conversations,
          c.id = cid ∧ um ∈ c.messages) ∧
      (∀ (m : String) (amid : Option String) (events : List StreamChunk),
        ∃ c ∈ (onError m (applyChunks
            ⟨(sendMessage st content newConvId userMsgId now).state, amid⟩
            events)).chat.conversations,
          c.id = cid ∧ um ∈ c.messages) ∧
      (∀ (amid : Option String) (events : List StreamChunk),
        ∃ c ∈ (cancelStream (applyChunks
            ⟨(sendMessage st content newConvId userMsgId now).state, amid⟩
            events).chat).conversations,
          c.id = cid ∧ um ∈ c.messages) := by
  have hbase : ∃ cid,
      (sendMessage st content newConvId userMsgId now).userMessage =
        some ⟨userMsgId, .user, content, now⟩ ∧
      (sendMessage st content newConvId userMsgId now).request =
        some { conversation_id := some cid, message := content,
               model := none, temperature := none, max_tokens := none } ∧
      ∃ c ∈ (sendMessage st content newConvId userMsgId now).state.conversations,
        c.id = cid ∧ (⟨userMsgId, .user, content, now⟩ : Message) ∈ c.messages := by
    cases hc : st.currentConversation with
    | some c0 =>
      refine ⟨c0.id, ?_, ?_, ?_⟩
      · simp [sendMessage, hc, hidle]
      · simp [sendMessage, hc, hidle]
      · have hconvs : (sendMessage st content newConvId userMsgId now).state.conversations =
            st.conversations.map (fun conv =>
              if conv.id = c0.id then
                { conv with
                    messages := conv.messages ++ [⟨userMsgId, .user, content, now⟩]
                    updated_at := now }
              else conv) := by
          simp [sendMessage, hc, hidle, addMessage_conversations]
        rw [hconvs]
        refine ⟨⟨c0.id, c0.title, c0.messages ++ [⟨userMsgId, .user, content, now⟩],
          c0.created_at, now⟩, ?_, rfl, by simp⟩
        have hmem := List.mem_map_of_mem
          (fun conv =>
            if conv.id = c0.id then
              { conv with
                  messages := conv.messages ++ [⟨userMsgId, .user, content, now⟩]
                  updated_at := now }
            else conv) (hcur c0 hc)
        simpa using hmem
    | none =>
      refine ⟨newConvId, ?_, ?_, ?_⟩
      · simp [sendMessage, hc, hidle, createNewConversation, setCurrentConversation,
          addConversation]
      · simp [sendMessage, hc, hidle, createNewConversation, setCurrentConversation,
          addConversation]
      · refine ⟨⟨newConvId, "New Chat", [⟨userMsgId, .user, content, now⟩], now, now⟩, ?_,
          rfl, by simp⟩
        simp [sendMessage, hc, hidle, createNewConversation, setCurrentConversation,
          addConversation, addMessage_conversations]
  obtain ⟨cid, hum, hreq, hmem⟩ := hbase
  refine ⟨_, cid, hum, rfl, rfl, hreq, hmem, ?_, ?_, ?_⟩
  · intro freshId now2 amid tr
    exact exists_mem_runStream _ _ _ _ _ _ _ _ hmem
  · intro m amid events
    simpa using hmem
  · intro amid events
    simpa using hmem

theorem c5_user_message_committed_before_request_witness :
    idleState.isStreaming = false ∧
    (∀ c, idleState.currentConversation = some c → c ∈ idleState.conversations) ∧
    (∃ um cid,
      (sendMessage idleState "hello" "n1" "u1" "t1").userMessage = some um ∧
      um.role = .user ∧ um.content = "hello" ∧
      (sendMessage idleState "hello" "n1" "u1" "t1").request =
        some { conversation_id := some cid, message := "hello",
               model := none, temperature := none, max_tokens := none } ∧
      (∃ c ∈ (sendMessage idleState "hello" "n1" "u1" "t1").state.conversations,
        c.id = cid ∧ um ∈ c.messages) ∧
      (∀ freshId now2 (amid : Option String) (tr : StreamResult),
        ∃ c ∈ (runStream cid freshId now2
            ⟨(sendMessage idleState "hello" "n1" "u1" "t1").state, amid⟩ tr).chat.conversations,
          c.id = cid ∧ um ∈ c.messages) ∧
      (∀ (m : String) (amid : Option String) (events : List StreamChunk),
        ∃ c ∈ (onError m (applyChunks
            ⟨(sendMessage idleState "hello" "n1" "u1" "t1").state, amid⟩
            events)).chat.conversations,
          c.id = cid ∧ um ∈ c.messages) ∧
      (∀ (amid : Option String) (events : List StreamChunk),
        ∃ c ∈ (cancelStream (applyChunks
            ⟨(sendMessage idleState "hello" "n1" "u1" "t1").state, amid⟩
            events).chat).conversations,
          c.id = cid ∧ um ∈ c.messages)) :=
  ⟨rfl,
   fun c hc => by
     have hc0 : conv0 = c := by simpa [idleState] using hc
     subst hc0
     simp [idleState],
   c5_user_message_committed_before_request idleState "hello" "n1" "u1" "t1" rfl
     (fun c hc => by
       have hc0 : conv0 = c := by simpa [idleState] using hc
       subst hc0
       simp [idleState])⟩

/-- Claim C7: when no conversation in the store carries the given id
(neither in the list nor as the current conversation), `addMessage`
leaves the conversation list and the current conversation completely
unchanged — it is a total function, so nothing is thrown — and
consequently a whole streaming completion (`runStream`) targeting a
conversation deleted mid-stream leaves the conversation list unchanged:
the orphaned completion is discarded without crashing the commit path. -/
theorem c7_addMessage_unknown_conversation_noop (st : ChatState) (cid : String)
    (m : Message) (now : String)
    (hlist : ∀ c ∈ st.conversations, c.id ≠ cid)
    (hcur : ∀ c, st.currentConversation = some c → c.id ≠ cid) :
    (addMessage st cid m now).conversations = st.conversations ∧
    (addMessage st cid m now).currentConversation = st.currentConversation ∧
    ∀ freshId now2 (amid : Option String) (tr : StreamResult),
      (runStream cid freshId now2 ⟨st, amid⟩ tr).chat.conversations = st.conversations := by
  refine ⟨?_, ?_, ?_⟩
  · rw [addMessage_conversations]
    exact map_ite_id_of_absent st.conversations cid _ hlist
  · cases hc : st.currentConversation with
    | none => simp [addMessage, hc]
    | some c => simp [addMessage, hc, hcur c hc]
  · intro freshId now2 amid tr
    rw [runStream, onComplete]
    dsimp only
    by_cases hne : (applyChunks ⟨st, amid⟩ tr.events).chat.currentStreamingMessage ≠ ""
    · rw [if_pos hne]
      simp only [conversations_clearStreamingMessage, conversations_setIsStreaming,
        addMessage_conversations, applyChunks_conversations]
      exact map_ite_id_of_absent st.conversations cid _ hlist
    · rw [if_neg hne]
      simp only [conversations_clearStreamingMessage, conversations_setIsStreaming,
        applyChunks_conversations]

theorem c7_addMessage_unknown_conversation_noop_witness :
    (∀ c ∈ idleState.conversations, c.id ≠ "gone") ∧
    (∀ c, idleState.currentConversation = some c → c.id ≠ "gone") ∧
    ((addMessage idleState "gone" ⟨"m1", .user, "hi", "t1"⟩ "t1").conversations =
        idleState.conversations ∧
     (addMessage idleState "gone" ⟨"m1", .user, "hi", "t1"⟩ "t1").currentConversation =
        idleState.currentConversation ∧
     ∀ freshId now2 (amid : Option String) (tr : StreamResult),
       (runStream "gone" freshId now2 ⟨idleState, amid⟩ tr).chat.conversations =
         idleState.conversations) :=
  ⟨by decide, by decide, c7_addMessage_unknown_conversation_noop idleState "gone"
    ⟨"m1", .user, "hi", "t1"⟩ "t1" (by decide) (by decide)⟩

/-- Claim C8: saving a conversation to the durable store (replace by
matching id, or prepend when absent) and then loading all conversations
yields a collection containing a conversation structurally equal to the
saved one — same id, title, messages in the same order with identical
content and timestamp fields: persist-then-reload is a round trip. -/
theorem c8_save_then_loadAll_round_trip (store : List Conversation) (c : Conversation) :
    c ∈ loadAll (save store c) := by
  cases h : store.findIdx? (fun x => x.id == c.id) with
  | none =>
    simp only [loadAll, save, h]
    exact List.mem_cons_self c store
  | some i =>
    simp only [loadAll, save, h]
    exact List.mem_set store i (findIdx?_lt_length _ store i h) c

/-- Claim C9, original form, is false on the code: renaming a
conversation through the store's `updateConversation` operation applies
the new title but leaves `updated_at` exactly as it was — the structural
edit does not advance `updated_at`. -/
theorem c9_counterexample_rename_updated_at :
    ((updateConversation idleState "c0"
        ⟨none, some "Renamed", none, none, none⟩).conversations.map
      fun c => (c.title, c.updated_at)) = [("Renamed", "t0")] ∧
    (idleState.conversations.map fun c => (c.title, c.updated_at)) =
      [("New Chat", "t0")] := by
  constructor <;> rfl

/-- Claim C9 (amended): `addMessage` stamps `updated_at` with the append
time on every append, so `updated_at ≥ created_at` is preserved whenever
appends happen at or after creation time; `addMessage` only ever appends
to a conversation's message sequence (never reorders or deletes); a
title rename through the store's `updateConversation` leaves
`updated_at` (and the messages) unchanged; and the streaming-buffer
operations (`appendToStreamingMessage`, `clearStreamingMessage`,
`setIsStreaming`, `setError`) never touch any conversation. -/
theorem c9_amended_timestamps_append_only (st : ChatState) (cid : String) (m : Message)
    (now t : String)
    (h1 : ∀ c ∈ st.conversations, tsLe c.created_at c.updated_at)
    (h2 : ∀ c ∈ st.conversations, tsLe c.created_at now) :
    (∀ c ∈ (addMessage st cid m now).conversations, tsLe c.created_at c.updated_at) ∧
    (addMessage st cid m now).conversations =
      (st.conversations.map fun conv =>
        if conv.id = cid then { conv with messages := conv.messages ++ [m], updated_at := now }
        else conv) ∧
    (∀ c ∈ st.conversations, ∃ c2 ∈ (addMessage st cid m now).conversations,
      c2.id = c.id ∧ ∃ tl, c2.messages = c.messages ++ tl) ∧
    ((updateConversation st cid ⟨none, some t, none, none, none⟩).conversations.map
        fun c => (c.id, c.updated_at, c.messages)) =
      (st.conversations.map fun c => (c.id, c.updated_at, c.messages)) ∧
    (∀ s, (appendToStreamingMessage st s).conversations = st.conversations) ∧
    ((clearStreamingMessage st).conversations = st.conversations) ∧
    (∀ b, (setIsStreaming st b).conversations = st.conversations) ∧
    (∀ e, (setError st e).conversations = st.conversations) := by
  refine ⟨?_, addMessage_conversations st cid m now, ?_, ?_, fun s => rfl, rfl,
    fun b => rfl, fun e => rfl⟩
  · intro c hc
    rw [addMessage_conversations] at hc
    obtain ⟨c0, hc0, rfl⟩ := List.mem_map.mp hc
    by_cases hh : c0.id = cid
    · simpa [hh] using h2 c0 hc0
    · simpa [hh] using h1 c0 hc0
  · intro c hc
    refine ⟨if c.id = cid then { c with messages := c.messages ++ [m], updated_at := now } else c,
      ?_, ?_, ?_⟩
    · rw [addMessage_conversations]
      exact List.mem_map_of_mem _ hc
    · by_cases hh : c.id = cid <;> simp [hh]
    · by_cases hh : c.id = cid
      · exact ⟨[m], by simp [hh]⟩
      · exact ⟨[], by simp [hh]⟩
  · rw [updateConversation]
    dsimp only
    rw [List.map_map]
    apply List.map_congr_left
    intro c hc
    by_cases hh : c.id = cid <;> simp [hh, spreadUpdates]

theorem c9_amended_timestamps_append_only_witness :
    (∀ c ∈ idleState.conversations, tsLe c.created_at c.updated_at) ∧
    (∀ c ∈ idleState.conversations, tsLe c.created_at "t1") ∧
    ((∀ c ∈ (addMessage idleState "c0" ⟨"m1", .user, "hi", "t1"⟩ "t1").conversations,
        tsLe c.created_at c.updated_at) ∧
     (addMessage idleState "c0" ⟨"m1", .user, "hi", "t1"⟩ "t1").conversations =
       (idleState.conversations.map fun conv =>
         if conv.id = "c0" then
           { conv with
               messages := conv.messages ++ [⟨"m1", .user, "hi", "t1"⟩]
               updated_at := "t1" }
         else conv) ∧
     (∀ c ∈ idleState.conversations,
       ∃ c2 ∈ (addMessage idleState "c0" ⟨"m1", .user, "hi", "t1"⟩ "t1").conversations,
         c2.id = c.id ∧ ∃ tl, c2.messages = c.messages ++ tl) ∧
     ((updateConversation idleState "c0" ⟨none, some "T", none, none, none⟩).conversations.map
         fun c => (c.id, c.updated_at, c.messages)) =
       (idleState.conversations.map fun c => (c.id, c.updated_at, c.messages)) ∧
     (∀ s, (appendToStreamingMessage idleState s).conversations = idleState.conversations) ∧
     ((clearStreamingMessage idleState).conversations = idleState.conversations) ∧
     (∀ b, (setIsStreaming idleState b).conversations = idleState.conversations) ∧
     (∀ e, (setError idleState e).conversations = idleState.conversations)) :=
  ⟨by decide, by decide, c9_amended_timestamps_append_only idleState "c0"
    ⟨"m1", .user, "hi", "t1"⟩ "t1" "T" (by decide) (by decide)⟩

/-- Claim C10: when the body ends in a protocol line not terminated by a
newline before end-of-body, the transport emits no chunk event for that
trailing fragment — the run is identical to the run on the
newline-terminated part of the body alone — and still signals normal
completion exactly once. -/
theorem c10_unterminated_tail_discarded_completes_once
    (parse : List Char → Option StreamChunk) (deliveries : List (List Char))
    (body frag : List Char)
    (hjoin : deliveries.flatten = body ++ frag) (hfrag : '\n' ∉ frag) :
    streamChatCompletion parse deliveries = streamChatCompletion parse [body] ∧
    (streamChatCompletion parse deliveries).completions = 1 := by
  have h1 := streamChatCompletion_eq_canonical parse deliveries
  have h2 := streamChatCompletion_eq_canonical parse [body]
  have hfree : '\n' ∉ (splitLines body).2 ++ frag := by
    intro hmem
    rcases List.mem_append.mp hmem with h | h
    · exact snd_splitLines_no_newline body h
    · exact hfrag h
  constructor
  · rw [h1, h2, hjoin, splitLines_assoc body frag]
    rw [splitLines_no_newline _ hfree]
    simp
  · rw [h1]

theorem c10_unterminated_tail_discarded_completes_once_witness :
    (["data: x\nabc".toList] : List (List Char)).flatten =
      "data: x\n".toList ++ "abc".toList ∧
    '\n' ∉ "abc".toList ∧
    (streamChatCompletion parseNone ["data: x\nabc".toList] =
       streamChatCompletion parseNone ["data: x\n".toList] ∧
     (streamChatCompletion parseNone ["data: x\nabc".toList]).completions = 1) :=
  ⟨by decide, by decide, c10_unterminated_tail_discarded_completes_once parseNone
    ["data: x\nabc".toList] "data: x\n".toList "abc".toList (by decide) (by decide)⟩

end Insights
